import Mathlib

/-!
Verification of the queue/pump logic of `tgvoip_pyrogram/file_stream_call.py`
(class `VoIPFileStreamCallMixin`).

The mixin's mutable attributes are embedded as the record `PumpState`; its
methods become pure state-transformers.  File objects are embedded as
`FileSource` values (identity `fid` standing for the Python `file.name`,
`size` for the lazily cached `file.size`, `pos` for the OS-level position
read by `tell`, `closed` for the effect of `close`).  Because Python queues
hold references to mutable file objects, a mutation of the active file is
embedded as `List.set` at the active index of the owning queue.

Python behaviours with no value are made explicit:
  * `print`-and-return diagnostics become a `Bool`/result flag with the
    state returned unchanged;
  * an unhandled exception (IndexError from indexing a deque out of range,
    TypeError from comparing `None` with an int) becomes a dedicated result
    constructor, with the mutations committed before the raising line kept;
  * `round(x, 1)` on the progress percentage is embedded over `ℚ` with
    round-half-to-even (Python 3 rounding); all percentages appearing in the
    theorems below are exactly representable, so no float error is involved;
  * the division `offset * 100 / size` is total over `ℚ`; theorems that
    execute it carry a `0 < size` hypothesis, matching the spec's
    "size > 0 guaranteed by construction".
-/

/-- A file object as seen by the mixin: `fid` is its identity
(`file.name`), `size` the byte size (`file.size`), `pos` the current
position (`tell`/`seek`/`read`), `closed` whether `close` was called. -/
structure FileSource where
  fid : Nat
  size : Nat
  pos : Nat
  closed : Bool
deriving DecidableEq

/-- `file.close()`. -/
def closeFS (f : FileSource) : FileSource := { f with closed := true }

/-- The mutable attributes of `VoIPFileStreamCallMixin` set in `__init__`:
`input_files`, `hold_files`, `current_file_index`, `last_file_name`,
`current_file` (kept as the referenced file's identity),
`current_bytes_offset`, `force_seek`, `last_progress_percentage`
(initially the int `0`), `output_file`. -/
structure PumpState where
  input_files : List FileSource
  hold_files : List FileSource
  current_file_index : Nat
  last_file_name : Option Nat
  current_file : Option Nat
  current_bytes_offset : Nat
  force_seek : Bool
  last_progress_percentage : ℚ
  output_file : Option FileSource
deriving DecidableEq

/-- The state after `__init__`. -/
def initState : PumpState :=
  { input_files := [], hold_files := [], current_file_index := 0,
    last_file_name := none, current_file := none, current_bytes_offset := 0,
    force_seek := false, last_progress_percentage := 0, output_file := none }

/-- `files = self.hold_files if len(self.hold_files) else self.input_files`
(the selection used by `_read_frame` and `seek`). -/
def activeFiles (s : PumpState) : List FileSource :=
  if s.hold_files.isEmpty then s.input_files else s.hold_files

/-- Round-half-to-even to an integer (Python 3 `round` on exact values). -/
def roundHalfEven (q : ℚ) : ℤ :=
  let n := ⌊q⌋
  let r := q - n
  if r < 1/2 then n
  else if 1/2 < r then n + 1
  else if n % 2 = 0 then n else n + 1

/-- Python `round(q, 1)`: round-half-to-even to one decimal place. -/
def roundTenth (q : ℚ) : ℚ := (roundHalfEven (q * 10) : ℚ) / 10

/-- `file_progress`: given the stored `last_progress_percentage` and the
raw `percentage` argument, return the new stored value and whether the
progress event fired (the method returns early, firing nothing, when the
stored value equals `round(percentage, 1)`). -/
def file_progress (last : ℚ) (percentage : ℚ) : ℚ × Bool :=
  if last = roundTenth percentage then (last, false)
  else (roundTenth percentage, true)

/-- `next_file`.  The `Bool` is `true` when the Python method raises an
unhandled IndexError; mutations performed before the raising line are kept
in the returned state.  Branch order follows the source:
`if len(self.input_files): ... elif len(self.hold_files): ... `.
In the playback branch the source at `current_file_index` is closed
(mutating the referenced object), the queue head is popped, and then
`self.current_file = self.input_files[self.current_file_index]` raises
IndexError when that index is no longer in range.  In the hold branch the
wrapped index is always in range, so `getD` is exact. -/
def next_file (s : PumpState) : PumpState × Bool :=
  let i := s.current_file_index
  if s.input_files.isEmpty then
    if s.hold_files.isEmpty then (s, false)
    else
      match s.hold_files[i]? with
      | none => (s, true)
      | some file =>
        let hold2 := s.hold_files.set i { file with pos := 0 }
        let j := if i + 1 < hold2.length then i + 1 else 0
        ({ s with hold_files := hold2, current_bytes_offset := 0,
                  current_file_index := j,
                  current_file := some ((hold2.getD j file).fid) }, false)
  else
    match s.input_files[i]? with
    | none => (s, true)
    | some file =>
      let popped := (s.input_files.set i (closeFS file)).tail
      match popped[i]? with
      | none => ({ s with input_files := popped }, true)
      | some nf => ({ s with input_files := popped, current_file := some nf.fid }, false)

/-- What `_read_frame` returns: a frame of `n` bytes, Python `None`
(after printing `file index unnexistent`), or an unhandled IndexError
propagated out of `next_file`. -/
inductive ReadResult where
  | frame (n : Nat)
  | noneRes
  | indexError
deriving DecidableEq

/-- One `_read_frame` call: its return value, the state it leaves behind,
whether `file_changed` was invoked, whether a progress event fired inside
`file_progress`, and the offset `file.seek` was called with when
`force_seek` was pending (`none` when no repositioning happened). -/
structure ReadOut where
  result : ReadResult
  state : PumpState
  fileChangedFired : Bool
  progressFired : Bool
  repositioned : Option Nat
deriving DecidableEq

/-- `_read_frame(length)`.  Reads from `activeFiles` at
`current_file_index`; a pending `force_seek` repositions the file to
`current_bytes_offset` first; `read` returns `min length (size - pos)`
bytes and advances the position; a short read triggers `next_file`. -/
def read_frame (length : Nat) (s : PumpState) : ReadOut :=
  let files := activeFiles s
  match files[s.current_file_index]? with
  | none => ⟨.noneRes, s, false, false, none⟩
  | some file =>
    let idx := s.current_file_index
    let file1 := if s.force_seek then { file with pos := s.current_bytes_offset } else file
    let reposTo : Option Nat := if s.force_seek then some s.current_bytes_offset else none
    let readLen := min length (file1.size - file1.pos)
    let file2 := { file1 with pos := file1.pos + readLen }
    let files2 := files.set idx file2
    let changed : Bool := s.last_file_name != some file.fid
    let pct : ℚ := ((file2.pos : ℚ) * 100) / (file2.size : ℚ)
    let pr := file_progress s.last_progress_percentage pct
    let s2 : PumpState :=
      { s with
        hold_files := if s.hold_files.isEmpty then s.hold_files else files2,
        input_files := if s.hold_files.isEmpty then files2 else s.input_files,
        current_file := some file.fid,
        current_bytes_offset := file2.pos,
        force_seek := false,
        last_file_name := some file.fid,
        last_progress_percentage := pr.1 }
    if readLen ≠ length then
      let nf := next_file s2
      ⟨if nf.2 then .indexError else .frame readLen, nf.1, changed, pr.2, reposTo⟩
    else
      ⟨.frame readLen, s2, changed, pr.2, reposTo⟩

/-- What `previous_file` does: print-and-return (`unsupported`), succeed,
or raise an unhandled IndexError indexing `hold_files`. -/
inductive PrevResult where
  | unsupported
  | ok
  | indexError
deriving DecidableEq

/-- `previous_file`.  Refuses (print + return) whenever `input_files` is
non-empty; otherwise rewinds `hold_files[current_file_index]` to 0 and
steps the index back, wrapping to `len(hold_files) - 1` below zero.
The wrapped index is always in range, so `getD` is exact. -/
def previous_file (s : PumpState) : PumpState × PrevResult :=
  if s.input_files.isEmpty then
    let i := s.current_file_index
    match s.hold_files[i]? with
    | none => (s, .indexError)
    | some file =>
      let hold2 := s.hold_files.set i { file with pos := 0 }
      let j := if 1 ≤ i then i - 1 else hold2.length - 1
      ({ s with hold_files := hold2, current_bytes_offset := 0,
                current_file_index := j,
                current_file := some ((hold2.getD j file).fid) }, .ok)
  else (s, .unsupported)

/-- What `seek` does: raise TypeError (`None >= len(files)` with the
default argument), print-and-return on an out-of-range index, or set the
cursor. -/
inductive SeekResult where
  | typeError
  | outOfRange
  | ok
deriving DecidableEq

/-- `seek(bytes_offset, file_index)`.  The offset is floored to the
nearest even value; with `file_index = None` the comparison
`file_index >= len(files)` raises TypeError before any attribute is
assigned; an out-of-range index prints and returns; otherwise the cursor
fields are set and `force_seek` is armed. -/
def seek (bytes_offset : Nat) (file_index : Option Nat) (s : PumpState) :
    PumpState × SeekResult :=
  let off := bytes_offset / 2 * 2
  let files := activeFiles s
  match file_index with
  | none => (s, .typeError)
  | some i =>
    match files[i]? with
    | none => (s, .outOfRange)
    | some f =>
      ({ s with current_file_index := i, current_file := some f.fid,
                current_bytes_offset := off, force_seek := true }, .ok)

/-- A caller-supplied already-open handle: the underlying file plus the
attributes inspected by the mode validation (`hasattr(f, 'mode')` and the
mode string). -/
structure Handle where
  file : FileSource
  hasMode : Bool
  mode : List Char
deriving DecidableEq

/-- The read-mode validation of `play` / `play_on_hold`:
`hasattr(f, 'mode') and 'b' in f.mode and any(m in f.mode for m in 'rxa+')`. -/
def binary_read_ok (h : Handle) : Bool :=
  h.hasMode && h.mode.contains 'b' &&
    (h.mode.contains 'r' || h.mode.contains 'x' || h.mode.contains 'a' ||
      h.mode.contains '+')

/-- The write-mode validation of `set_output_file`:
`'b' in f.mode and any(m in f.mode for m in 'wxa+')` (note: no `hasattr`
guard in the source). -/
def binary_write_ok (mode : List Char) : Bool :=
  mode.contains 'b' && (mode.contains 'w' || mode.contains 'x' ||
    mode.contains 'a' || mode.contains '+')

/-- An argument that is either a path string (opened internally; `fid` and
`size` describe the resulting file object) or an already-open handle. -/
inductive PlayArg where
  | path (fid size : Nat)
  | handle (h : Handle)
deriving DecidableEq

/-- `open(f, 'rb')` on a path. -/
def openRead (fid size : Nat) : FileSource := ⟨fid, size, 0, false⟩

/-- `play(f)`.  A path is opened without validation; a handle in the wrong
mode prints and returns (the `Bool` is `true` when the diagnostic was
printed); otherwise the file is appended to `input_files`. -/
def play (f : PlayArg) (s : PumpState) : PumpState × Bool :=
  match f with
  | .path fid size => ({ s with input_files := s.input_files ++ [openRead fid size] }, false)
  | .handle h =>
    if binary_read_ok h then
      ({ s with input_files := s.input_files ++ [h.file] }, false)
    else (s, true)

/-- `clear_file_info`. -/
def clear_file_info (s : PumpState) : PumpState :=
  { s with last_file_name := none, current_file := none,
           current_file_index := 0, current_bytes_offset := 0 }

/-- `clear_hold_queue` (the contained sources are closed and dropped). -/
def clear_hold_queue (s : PumpState) : PumpState :=
  clear_file_info { s with hold_files := [] }

/-- `clear_play_queue` (the contained sources are closed and dropped). -/
def clear_play_queue (s : PumpState) : PumpState :=
  clear_file_info { s with input_files := [] }

/-- The argument of `play_on_hold`: a proper sequence (list/tuple/set) of
files-or-paths, or a scalar of any other type. -/
inductive HoldArg where
  | seq (fs : List PlayArg)
  | scalar
deriving DecidableEq

/-- `play_on_hold(files)`.  A non-sequence argument prints and returns
(the `Bool` is `true`); otherwise the previous hold queue is cleared and
each element is validated and appended (invalid handles are skipped with
`continue`). -/
def play_on_hold (arg : HoldArg) (s : PumpState) : PumpState × Bool :=
  match arg with
  | .scalar => (s, true)
  | .seq fs =>
    let s1 := clear_hold_queue s
    let s2 := fs.foldl (fun st f =>
      match f with
      | .path fid size => { st with hold_files := st.hold_files ++ [openRead fid size] }
      | .handle h =>
        if binary_read_ok h then { st with hold_files := st.hold_files ++ [h.file] }
        else st) s1
    (s2, false)

/-- What `set_output_file` does: succeed, print-and-return on a wrong
mode, or raise AttributeError on a handle with no `mode` attribute. -/
inductive OutResult where
  | ok
  | badMode
  | attrError
deriving DecidableEq

/-- `set_output_file(f)`.  A path is opened as `'wb'`; a handle without a
`mode` attribute raises AttributeError; a wrong-mode handle prints and
returns; otherwise the handle becomes the output file. -/
def set_output_file (f : PlayArg) (s : PumpState) : PumpState × OutResult :=
  match f with
  | .path fid _ => ({ s with output_file := some ⟨fid, 0, 0, false⟩ }, .ok)
  | .handle h =>
    if h.hasMode then
      if binary_write_ok h.mode then ({ s with output_file := some h.file }, .ok)
      else (s, .badMode)
    else (s, .attrError)

/-- Iterated `_read_frame` calls of a fixed requested length, keeping only
the state. -/
def runReads (length : Nat) : Nat → PumpState → PumpState
  | 0, s => s
  | m + 1, s => runReads length m (read_frame length s).state

/-! ## Concrete scenario states -/

/-- A fresh call whose playback queue holds a single 10-byte source
(`play` of one file, nothing on hold): the C1 end-to-end scenario. -/
def c1State : PumpState :=
  { initState with input_files := [⟨1, 10, 0, false⟩] }

/-- A fresh call whose playback queue holds a single 10000-byte source:
the C2 progress scenario (offsets 1, 2, 100, 101, 200 give percentages
0.01, 0.02, 1.0, 1.01, 2.0, whose one-decimal roundings are
0.0, 0.0, 1.0, 1.0, 2.0). -/
def c2State : PumpState :=
  { initState with input_files := [⟨1, 10000, 0, false⟩] }

def c2read1 : ReadOut := read_frame 1 c2State
def c2read2 : ReadOut := read_frame 1 c2read1.state
def c2read3 : ReadOut := read_frame 98 c2read2.state
def c2read4 : ReadOut := read_frame 1 c2read3.state
def c2read5 : ReadOut := read_frame 99 c2read4.state

/-! ## C1 -/

/-- Claim C1 (code bug exhibited): with an empty hold queue and a single
10-byte playback source, `supplyFrame(4)` returns a 4-byte frame twice,
with the file-changed event firing exactly on the first call; but the
third call, instead of returning the remaining 2-byte frame, propagates an
unhandled IndexError out of `next_file` (which pops the last playback
source and then evaluates `self.input_files[self.current_file_index]` on
the now-empty deque).  The queue is empty at the point of the crash. -/
theorem c1_playback_exhaustion_run :
    (read_frame 4 c1State).result = .frame 4 ∧
    (read_frame 4 c1State).fileChangedFired = true ∧
    (read_frame 4 (read_frame 4 c1State).state).result = .frame 4 ∧
    (read_frame 4 (read_frame 4 c1State).state).fileChangedFired = false ∧
    (read_frame 4 (read_frame 4 (read_frame 4 c1State).state).state).result = .indexError ∧
    (read_frame 4 (read_frame 4 (read_frame 4 c1State).state).state).fileChangedFired = false ∧
    (read_frame 4 (read_frame 4 (read_frame 4 c1State).state).state).state.input_files = [] := by
  decide

/-! ## C2 -/

/-- Claim C2 (counterexample): a run of five reads on a single active
source whose successive byte offsets are 1, 2, 100, 101, 200 out of 10000
bytes — so the one-decimal-rounded percentages are exactly
[0.0, 0.0, 1.0, 1.0, 2.0] — fires exactly 2 progress events, not the
claimed 3: the initial `last_progress_percentage = 0` of `__init__`
already equals the rounded 0.0, so no event fires for the distinct rounded
value 0.0. -/
theorem c2_progress_count_counterexample :
    [roundTenth ((1 * 100 : ℚ) / 10000), roundTenth ((2 * 100 : ℚ) / 10000),
      roundTenth ((100 * 100 : ℚ) / 10000), roundTenth ((101 * 100 : ℚ) / 10000),
      roundTenth ((200 * 100 : ℚ) / 10000)] = [0, 0, 1, 1, 2] ∧
    [c2read1.state.current_bytes_offset, c2read2.state.current_bytes_offset,
      c2read3.state.current_bytes_offset, c2read4.state.current_bytes_offset,
      c2read5.state.current_bytes_offset] = [1, 2, 100, 101, 200] ∧
    [c2read1.progressFired, c2read2.progressFired, c2read3.progressFired,
      c2read4.progressFired, c2read5.progressFired] = [false, false, true, false, true] ∧
    ([c2read1.progressFired, c2read2.progressFired, c2read3.progressFired,
      c2read4.progressFired, c2read5.progressFired].count true = 2 ∧
      ¬ [c2read1.progressFired, c2read2.progressFired, c2read3.progressFired,
        c2read4.progressFired, c2read5.progressFired].count true = 3) := by
  with_unfolding_all decide

/-- Claim C2 as amended: on the same run (rounded percentages
[0.0, 0.0, 1.0, 1.0, 2.0]) exactly 2 progress events fire, in ascending
order of percentage — the events carry the rounded values 1.0 then 2.0 —
because the dedup state is initialized to 0 and therefore suppresses every
leading reading that rounds to 0.0. -/
theorem c2_progress_events_amended :
    [c2read1.progressFired, c2read2.progressFired, c2read3.progressFired,
      c2read4.progressFired, c2read5.progressFired] = [false, false, true, false, true] ∧
    c2read3.state.last_progress_percentage = 1 ∧
    c2read5.state.last_progress_percentage = 2 ∧
    c2read3.state.last_progress_percentage < c2read5.state.last_progress_percentage := by
  with_unfolding_all decide

/-! ## C10 -/

/-- Claim C10: for every state and offset, calling `seek` with the
`file_index` argument left at its declared default `None` raises an
unhandled TypeError (from evaluating `file_index >= len(files)` with
`None`) before any cursor state is modified: the state is returned
untouched and neither the in-range nor the out-of-range outcome is
reachable without an integer index. -/
theorem c10_seek_none_type_error (s : PumpState) (off : Nat) :
    seek off none s = (s, .typeError) := rfl

/-! ## C3 -/

/-- A state in which both queues are configured — the hold queue (the
active one, since `_read_frame` prefers it) holds a source currently at
position 3. -/
def c3CounterState : PumpState :=
  { initState with input_files := [⟨1, 5, 0, false⟩],
                   hold_files := [⟨2, 8, 3, false⟩],
                   current_file := some 2, current_bytes_offset := 3 }

/-- Claim C3 (counterexample): it is not true that `previous_file`
rewinds and succeeds whenever the hold queue is operating (non-empty, with
the index in range) — with a non-empty playback queue alongside, the guard
`if len(self.input_files)` fires, the call reports the unsupported-
operation diagnostic, and nothing is rewound. -/
theorem c3_previous_file_counterexample :
    ¬ (∀ s : PumpState, s.hold_files ≠ [] →
        s.current_file_index < s.hold_files.length →
        (previous_file s).2 = .ok ∧ (previous_file s).1.current_bytes_offset = 0) := by
  intro h
  exact absurd (h c3CounterState (by decide) (by decide)).1 (by decide)

/-- Claim C3 as amended: `previous_file` reports the unsupported-operation
diagnostic and leaves all state unchanged exactly when the playback queue
is non-empty — even when a hold queue is simultaneously configured and
active; only when the playback queue is empty and the hold-queue index is
in range does it rewind the current source to offset 0 and move the index
backward modulo the hold-queue length. -/
theorem c3_previous_file_amended (s : PumpState) :
    (s.input_files ≠ [] → previous_file s = (s, .unsupported)) ∧
    (s.input_files = [] →
      ∀ h : s.current_file_index < s.hold_files.length,
        (previous_file s).2 = .ok ∧
        (previous_file s).1.hold_files =
          s.hold_files.set s.current_file_index
            { s.hold_files[s.current_file_index] with pos := 0 } ∧
        (previous_file s).1.current_bytes_offset = 0 ∧
        (previous_file s).1.current_file_index =
          (if 1 ≤ s.current_file_index then s.current_file_index - 1
           else s.hold_files.length - 1) ∧
        (previous_file s).1.input_files = s.input_files) := by
  constructor
  · intro hne
    have : s.input_files.isEmpty = false := List.isEmpty_eq_false.mpr hne
    simp [previous_file, this]
  · intro he h
    have hiem : s.input_files.isEmpty = true := by simp [he]
    have hget : s.hold_files[s.current_file_index]? =
        some s.hold_files[s.current_file_index] := List.getElem?_eq_getElem h
    simp [previous_file, hiem, hget, he]

/-- A playback-only state for the no-op branch of the amended C3. -/
def c3WitA : PumpState := { initState with input_files := [⟨1, 5, 0, false⟩] }

/-- A hold-only state, cursor on the second of two sources at offset 2,
for the rewind branch of the amended C3. -/
def c3WitB : PumpState :=
  { initState with hold_files := [⟨2, 8, 3, false⟩, ⟨3, 6, 2, false⟩],
                   current_file_index := 1, current_file := some 3,
                   current_bytes_offset := 2 }

theorem c3_previous_file_amended_witness :
    previous_file c3WitA = (c3WitA, .unsupported) ∧
    (previous_file c3WitB).2 = .ok ∧
    (previous_file c3WitB).1.hold_files = [⟨2, 8, 3, false⟩, ⟨3, 6, 0, false⟩] ∧
    (previous_file c3WitB).1.current_bytes_offset = 0 ∧
    (previous_file c3WitB).1.current_file_index = 0 :=
  ⟨(c3_previous_file_amended c3WitA).1 (by decide),
   ((c3_previous_file_amended c3WitB).2 rfl (by decide)).1,
   ((c3_previous_file_amended c3WitB).2 rfl (by decide)).2.1,
   ((c3_previous_file_amended c3WitB).2 rfl (by decide)).2.2.1,
   ((c3_previous_file_amended c3WitB).2 rfl (by decide)).2.2.2.1⟩

/-! ## C6 -/

/-- Claim C6: `_read_frame` selects the hold queue whenever it is
non-empty and the playback queue otherwise; when the selected queue's
length is not greater than `current_file_index` (in particular when it is
empty), the call prints the no-active-source diagnostic, returns `None`
(no meaningful bytes), fires no event, and leaves the whole state
unchanged. -/
theorem c6_no_active_source (s : PumpState) (n : Nat)
    (h : (activeFiles s).length ≤ s.current_file_index) :
    read_frame n s = ⟨.noneRes, s, false, false, none⟩ ∧
    (s.hold_files ≠ [] → activeFiles s = s.hold_files) ∧
    (s.hold_files = [] → activeFiles s = s.input_files) := by
  refine ⟨?_, ?_, ?_⟩
  · have hnone : (activeFiles s)[s.current_file_index]? = none :=
      List.getElem?_eq_none h
    simp [read_frame, hnone]
  · intro hne
    simp [activeFiles, List.isEmpty_eq_false.mpr hne]
  · intro he
    simp [activeFiles, he]

theorem c6_no_active_source_witness :
    read_frame 4 initState = ⟨.noneRes, initState, false, false, none⟩ :=
  (c6_no_active_source initState 4 (by decide)).1

/-! ## C7 -/

/-- A handle opened in binary writing mode: `'b' ∈ mode` but none of
`rxa+` — rejected by the playback validation. -/
def c7BadRead : Handle := ⟨⟨9, 4, 0, false⟩, true, ['w', 'b']⟩

/-- A handle opened in text reading mode: no `'b'` — rejected by the
output validation. -/
def c7BadWrite : Handle := ⟨⟨9, 4, 0, false⟩, true, ['r']⟩

/-- Claim C7: each validation failure on a queue or seek mutator — a
non-sequence argument to `play_on_hold`, a wrong-mode handle passed to
`play` or `set_output_file`, or an out-of-range `seek` index — prints a
diagnostic and is otherwise a no-op: the returned state is exactly the
state before the call (both queues, the output sink and every cursor field
included). -/
theorem c7_mutator_noops (s : PumpState) (h1 h2 : Handle) (i off : Nat)
    (hb1 : binary_read_ok h1 = false)
    (hm2 : h2.hasMode = true) (hb2 : binary_write_ok h2.mode = false)
    (hi : (activeFiles s).length ≤ i) :
    play (.handle h1) s = (s, true) ∧
    play_on_hold .scalar s = (s, true) ∧
    set_output_file (.handle h2) s = (s, .badMode) ∧
    seek off (some i) s = (s, .outOfRange) := by
  have hnone : (activeFiles s)[i]? = none := List.getElem?_eq_none hi
  refine ⟨?_, rfl, ?_, ?_⟩
  · simp [play, hb1]
  · simp [set_output_file, hm2, hb2]
  · simp [seek, hnone]

theorem c7_mutator_noops_witness :
    play (.handle c7BadRead) initState = (initState, true) ∧
    play_on_hold .scalar initState = (initState, true) ∧
    set_output_file (.handle c7BadWrite) initState = (initState, .badMode) ∧
    seek 7 (some 0) initState = (initState, .outOfRange) :=
  c7_mutator_noops initState c7BadRead c7BadWrite 0 7 (by decide) rfl (by decide)
    (by decide)

/-! ## Helper lemmas on `next_file` and `_read_frame` -/

/-- `next_file` never touches `force_seek` (in any branch, including the
crashing ones). -/
lemma next_file_force_seek (s : PumpState) : (next_file s).1.force_seek = s.force_seek := by
  unfold next_file
  dsimp only
  split
  · split
    · rfl
    · split <;> rfl
  · split
    · rfl
    · split <;> rfl

/-- When the active queue has a file at the cursor, `_read_frame`
repositions exactly when `force_seek` is pending — and then to
`current_bytes_offset` — and always leaves `force_seek` cleared. -/
lemma read_frame_repositioned (n : Nat) (s : PumpState) (f : FileSource)
    (hget : (activeFiles s)[s.current_file_index]? = some f) :
    (read_frame n s).repositioned =
      (if s.force_seek then some s.current_bytes_offset else none) ∧
    (read_frame n s).state.force_seek = false := by
  unfold read_frame
  dsimp only
  rw [hget]
  dsimp only
  constructor
  · split <;> split <;> rfl
  · split <;> split <;> first
      | rfl
      | (rw [next_file_force_seek])

/-! ## C4 -/

/-- Claim C4: on every state whose active queue is non-empty,
`seek(7, 0)` succeeds, sets `current_bytes_offset` to 6 (the even floor
of 7), the index to 0, and arms `force_seek`; the next `_read_frame` call
(of any requested length) performs exactly one repositioning of the
source — to that offset 6 — before reading, and leaves `force_seek`
cleared.  (The `0 < size` hypothesis keeps the embedded progress division
on the domain where the Python division is defined.) -/
theorem c4_seek_even_floor_reposition (s : PumpState) (n : Nat)
    (hne : activeFiles s ≠ [])
    (hsz : ∀ f ∈ activeFiles s, 0 < f.size) :
    (seek 7 (some 0) s).2 = .ok ∧
    (seek 7 (some 0) s).1.current_bytes_offset = 6 ∧
    (seek 7 (some 0) s).1.force_seek = true ∧
    (seek 7 (some 0) s).1.current_file_index = 0 ∧
    (read_frame n (seek 7 (some 0) s).1).repositioned = some 6 ∧
    (read_frame n (seek 7 (some 0) s).1).state.force_seek = false := by
  have hlen : 0 < (activeFiles s).length := List.length_pos.mpr hne
  have hget : (activeFiles s)[0]? = some (activeFiles s)[0] := List.getElem?_eq_getElem hlen
  have hseek : seek 7 (some 0) s =
      ({ s with current_file_index := 0, current_file := some (activeFiles s)[0].fid,
                current_bytes_offset := 6, force_seek := true }, .ok) := by
    unfold seek
    dsimp only
    rw [hget]
  rw [hseek]
  refine ⟨rfl, rfl, rfl, rfl, ?_, ?_⟩
  · exact (read_frame_repositioned n _ _ hget).1.trans rfl
  · exact (read_frame_repositioned n _ _ hget).2

/-- A playback-only state with one 100-byte source, for the C4 witness. -/
def c4WitState : PumpState := { initState with input_files := [⟨1, 100, 0, false⟩] }

theorem c4_seek_even_floor_reposition_witness :
    (seek 7 (some 0) c4WitState).2 = .ok ∧
    (seek 7 (some 0) c4WitState).1.current_bytes_offset = 6 ∧
    (seek 7 (some 0) c4WitState).1.force_seek = true ∧
    (seek 7 (some 0) c4WitState).1.current_file_index = 0 ∧
    (read_frame 4 (seek 7 (some 0) c4WitState).1).repositioned = some 6 ∧
    (read_frame 4 (seek 7 (some 0) c4WitState).1).state.force_seek = false :=
  c4_seek_even_floor_reposition c4WitState 4 (by decide) (by decide)

/-! ## C8 -/

/-- Claim C8: in a state where both queues hold a source at the cursor,
`_read_frame` reads from the hold queue (it is the active selection, and
the read advances the hold source's position without rewinding it), but
the end-of-source advance in `next_file` branches on the playback queue's
non-emptiness: it closes the playback source at `current_file_index`,
pops the playback queue's head, and neither rewinds the exhausted hold
source nor advances the cursor. -/
theorem c8_hold_read_playback_advance (s : PumpState) (n : Nat)
    (hfs : s.force_seek = false)
    (fH fI : FileSource)
    (hgetH : s.hold_files[s.current_file_index]? = some fH)
    (hgetI : s.input_files[s.current_file_index]? = some fI)
    (hshort : fH.size - fH.pos < n)
    (hsz : 0 < fH.size) :
    activeFiles s = s.hold_files ∧
    (read_frame n s).state.hold_files =
      s.hold_files.set s.current_file_index { fH with pos := fH.pos + (fH.size - fH.pos) } ∧
    (read_frame n s).state.input_files =
      (s.input_files.set s.current_file_index (closeFS fI)).tail ∧
    (read_frame n s).state.current_file_index = s.current_file_index ∧
    (read_frame n s).repositioned = none := by
  have hltH : s.current_file_index < s.hold_files.length :=
    (List.getElem?_eq_some.mp hgetH).1
  have hltI : s.current_file_index < s.input_files.length :=
    (List.getElem?_eq_some.mp hgetI).1
  have hneH : s.hold_files ≠ [] := List.ne_nil_of_length_pos (by omega)
  have hneI : s.input_files ≠ [] := List.ne_nil_of_length_pos (by omega)
  have hemH : s.hold_files.isEmpty = false := List.isEmpty_eq_false.mpr hneH
  have hemI : s.input_files.isEmpty = false := List.isEmpty_eq_false.mpr hneI
  have hact : activeFiles s = s.hold_files := by simp [activeFiles, hemH]
  have hmin : min n (fH.size - fH.pos) = fH.size - fH.pos := Nat.min_eq_right hshort.le
  have hne' : min n (fH.size - fH.pos) ≠ n := by omega
  refine ⟨hact, ?_⟩
  unfold read_frame
  dsimp only
  rw [hact, hgetH, hfs]
  simp only [Bool.false_eq_true, if_false]
  rw [if_pos hne']
  unfold next_file
  dsimp only
  simp only [hemH, Bool.false_eq_true, if_false]
  split
  · simp_all
  · rw [hgetI]
    dsimp only
    rw [hmin]
    split <;> exact ⟨rfl, rfl, rfl, trivial⟩

/-- Both queues populated: the hold source (4 bytes, position 2) is
active while one 9-byte playback source waits — the C8 witness. -/
def c8WitState : PumpState :=
  { initState with hold_files := [⟨5, 4, 2, false⟩],
                   input_files := [⟨6, 9, 0, false⟩] }

theorem c8_hold_read_playback_advance_witness :
    activeFiles c8WitState = c8WitState.hold_files ∧
    (read_frame 5 c8WitState).state.hold_files = [⟨5, 4, 4, false⟩] ∧
    (read_frame 5 c8WitState).state.input_files = [] ∧
    (read_frame 5 c8WitState).state.current_file_index = 0 ∧
    (read_frame 5 c8WitState).repositioned = none :=
  c8_hold_read_playback_advance c8WitState 5 rfl ⟨5, 4, 2, false⟩ ⟨6, 9, 0, false⟩
    (by decide) (by decide) (by decide) (by decide)

/-! ## C9 -/

/-- Claim C9: with the playback queue active and the cursor on a later
index (`0 < current_file_index`, reachable by `seek` to that index, as the
last conjunct shows), the advance step closes the source at
`current_file_index` but pops the queue head: the closed source stays in
the queue (now one slot earlier), every other surviving slot is the
original next entry, and the unread head is discarded without being
closed. -/
theorem c9_close_at_cursor_pop_head (s : PumpState)
    (hh : s.hold_files = []) (hidx0 : 0 < s.current_file_index)
    (file : FileSource)
    (hget : s.input_files[s.current_file_index]? = some file) :
    (next_file s).1.input_files =
      (s.input_files.set s.current_file_index (closeFS file)).tail ∧
    ((s.input_files.set s.current_file_index (closeFS file)).tail)[s.current_file_index - 1]? =
      some (closeFS file) ∧
    (∀ j, j ≠ s.current_file_index - 1 →
      ((s.input_files.set s.current_file_index (closeFS file)).tail)[j]? =
        s.input_files[j + 1]?) ∧
    ((s.input_files.set s.current_file_index (closeFS file)).tail).length =
      s.input_files.length - 1 ∧
    (seek 0 (some s.current_file_index) s).1.current_file_index = s.current_file_index := by
  have hlt : s.current_file_index < s.input_files.length :=
    (List.getElem?_eq_some.mp hget).1
  have hne : s.input_files ≠ [] := List.ne_nil_of_length_pos (by omega)
  have hiem : s.input_files.isEmpty = false := List.isEmpty_eq_false.mpr hne
  refine ⟨?_, ?_, ?_, ?_, ?_⟩
  · unfold next_file
    dsimp only
    split
    · simp_all
    · rw [hget]
      dsimp only
      split <;> rfl
  · rw [List.getElem?_tail, Nat.sub_add_cancel hidx0]
    exact List.getElem?_set_self hlt
  · intro j hj
    rw [List.getElem?_tail]
    exact List.getElem?_set_ne (by omega)
  · simp [List.length_tail]
  · have hact : activeFiles s = s.input_files := by simp [activeFiles, hh]
    unfold seek
    dsimp only
    rw [hact, hget]

/-- A playback-only queue of three sources with the cursor seeked to
index 1 — the C9 witness. -/
def c9WitState : PumpState :=
  { initState with input_files := [⟨1, 4, 0, false⟩, ⟨2, 6, 6, false⟩, ⟨3, 8, 0, false⟩],
                   current_file_index := 1 }

theorem c9_close_at_cursor_pop_head_witness :
    (next_file c9WitState).1.input_files = [⟨2, 6, 6, true⟩, ⟨3, 8, 0, false⟩] ∧
    ([⟨1, 4, 0, false⟩, ⟨2, 6, 6, true⟩, ⟨3, 8, 0, false⟩].tail)[(0 : Nat)]? =
      some (⟨2, 6, 6, true⟩ : FileSource) ∧
    ([⟨1, 4, 0, false⟩, ⟨2, 6, 6, true⟩, ⟨3, 8, 0, false⟩].tail)[(1 : Nat)]? =
      c9WitState.input_files[(2 : Nat)]? ∧
    (seek 0 (some 1) c9WitState).1.current_file_index = 1 :=
  ⟨(c9_close_at_cursor_pop_head c9WitState rfl (by decide) ⟨2, 6, 6, false⟩ (by decide)).1,
   (c9_close_at_cursor_pop_head c9WitState rfl (by decide) ⟨2, 6, 6, false⟩ (by decide)).2.1,
   (c9_close_at_cursor_pop_head c9WitState rfl (by decide) ⟨2, 6, 6, false⟩ (by decide)).2.2.1
     1 (by decide),
   (c9_close_at_cursor_pop_head c9WitState rfl (by decide) ⟨2, 6, 6, false⟩ (by decide)).2.2.2.2⟩

/-! ## C5: hold-queue cyclic invariant -/

/-- One hold-only read step: with an empty playback queue, no pending
seek, and a source at the cursor whose size is below the requested
length, `_read_frame` returns the short frame `size - pos`, rewinds that
source to position 0 (the read advances it to end, `next_file` rewinds
it), advances the cursor with wraparound, and keeps the playback queue
empty and `force_seek` clear. -/
lemma read_frame_hold_step (L : Nat) (s : PumpState) (f : FileSource)
    (hinp : s.input_files = []) (hfs : s.force_seek = false)
    (hget : s.hold_files[s.current_file_index]? = some f)
    (hL : f.size < L) :
    (read_frame L s).state.input_files = [] ∧
    (read_frame L s).state.force_seek = false ∧
    (read_frame L s).state.hold_files =
      s.hold_files.set s.current_file_index { f with pos := 0 } ∧
    (read_frame L s).state.current_file_index =
      (if s.current_file_index + 1 < s.hold_files.length
       then s.current_file_index + 1 else 0) ∧
    (read_frame L s).result = .frame (f.size - f.pos) := by
  have hlt : s.current_file_index < s.hold_files.length :=
    (List.getElem?_eq_some.mp hget).1
  have hneH : s.hold_files ≠ [] := List.ne_nil_of_length_pos (by omega)
  have hemH : s.hold_files.isEmpty = false := List.isEmpty_eq_false.mpr hneH
  have hact : activeFiles s = s.hold_files := by simp [activeFiles, hemH]
  have hmin : min L (f.size - f.pos) = f.size - f.pos :=
    Nat.min_eq_right (by omega)
  have hne' : min L (f.size - f.pos) ≠ L := by rw [hmin]; omega
  have hset : (s.hold_files.set s.current_file_index
      { f with pos := f.pos + (f.size - f.pos) })[s.current_file_index]? =
      some { f with pos := f.pos + (f.size - f.pos) } :=
    List.getElem?_set_self hlt
  have hsetem : (s.hold_files.set s.current_file_index
      { f with pos := f.pos + (f.size - f.pos) }).isEmpty = false :=
    List.isEmpty_eq_false.mpr
      (List.ne_nil_of_length_pos (by rw [List.length_set]; omega))
  unfold read_frame
  dsimp only
  rw [hact, hget, hfs]
  simp only [Bool.false_eq_true, if_false]
  rw [if_pos hne']
  unfold next_file
  dsimp only
  simp only [hemH, Bool.false_eq_true, if_false, hinp, List.isEmpty_nil, if_true, hmin]
  split
  · next hc => rw [hsetem] at hc; exact absurd hc (by simp)
  · rw [hset]
    dsimp only
    refine ⟨rfl, rfl, ?_, ?_, rfl⟩
    · rw [List.set_set]
    · simp [List.length_set]

/-- The source's wraparound `file_index+1 if file_index+1 < len else 0`
is addition modulo the queue length. -/
lemma mod_succ_branch (a K : Nat) (hK : 0 < K) :
    (if a % K + 1 < K then a % K + 1 else 0) = (a + 1) % K := by
  have hb : a % K < K := Nat.mod_lt _ hK
  have h1 : (a + 1) % K = (a % K + 1) % K := (Nat.mod_add_mod a K 1).symm
  rw [h1]
  by_cases h : a % K + 1 < K
  · rw [if_pos h, Nat.mod_eq_of_lt h]
  · have he : a % K + 1 = K := by omega
    rw [if_neg h, he, Nat.mod_self]

/-- The cyclic distance from `i0` to the index reached after `m` steps
is `m` modulo the queue length. -/
lemma cycle_self (K i0 m : Nat) (hK : i0 < K) :
    ((i0 + m) % K + K - i0) % K = m % K := by
  have h0 : 0 < K := by omega
  have ha : (i0 + m) % K < K := Nat.mod_lt _ h0
  have hx : ((i0 + m) % K + K - i0) + i0 = (i0 + m) % K + K := by omega
  have h1 : (((i0 + m) % K + K - i0) + i0) % K = (m + i0) % K := by
    rw [hx, Nat.add_mod_right, Nat.mod_eq_of_lt ha, Nat.add_comm m i0]
  exact Nat.ModEq.add_right_cancel' i0 h1

/-- An index at cyclic distance `m < K` from `i0` is the index reached
after `m` steps. -/
lemma cycle_hit (K i0 m t : Nat) (hK : i0 < K) (ht : t < K) (hm : m < K)
    (h : (t + K - i0) % K = m) : t = (i0 + m) % K := by
  have hx : (t + K - i0) + i0 = t + K := by omega
  have h1 : (t + K) % K = (m + i0) % K := by
    rw [← hx, ← Nat.mod_add_mod, h]
  have h2 : t = (m + i0) % K := by
    rw [← Nat.mod_eq_of_lt ht, ← Nat.add_mod_right t K, h1]
  rw [h2, Nat.add_comm]

/-- Invariant after `m` hold-only reads of an always-exhausting length,
starting from hold queue `orig` and cursor `i0`: the playback queue stays
empty, `force_seek` stays clear, the cursor has advanced `m` steps modulo
the length, and exactly the sources already visited are rewound to 0 —
nothing is closed, nothing removed. -/
def HoldInv (orig : List FileSource) (i0 m : Nat) (u : PumpState) : Prop :=
  u.input_files = [] ∧
  u.force_seek = false ∧
  u.current_file_index = (i0 + m) % orig.length ∧
  u.hold_files.length = orig.length ∧
  ∀ t (ht : t < orig.length) (ht2 : t < u.hold_files.length),
    u.hold_files[t] =
      (if (t + orig.length - i0) % orig.length < m
       then { orig[t] with pos := 0 } else orig[t])

lemma HoldInv_zero (s : PumpState) (hinp : s.input_files = [])
    (hfs : s.force_seek = false)
    (hidx : s.current_file_index < s.hold_files.length) :
    HoldInv s.hold_files s.current_file_index 0 s := by
  refine ⟨hinp, hfs, ?_, rfl, ?_⟩
  · rw [Nat.add_zero, Nat.mod_eq_of_lt hidx]
  · intro t ht ht2
    rw [if_neg (by omega)]

lemma HoldInv_step (L : Nat) (orig : List FileSource) (i0 m : Nat) (u : PumpState)
    (hK : i0 < orig.length)
    (hsz : ∀ f ∈ orig, f.size < L)
    (h : HoldInv orig i0 m u) :
    HoldInv orig i0 (m + 1) (read_frame L u).state := by
  obtain ⟨hinp, hfs, hidx, hlen, hpt⟩ := h
  have h0 : 0 < orig.length := by omega
  have hiu : u.current_file_index < u.hold_files.length := by
    rw [hlen, hidx]; exact Nat.mod_lt _ h0
  have hiuo : u.current_file_index < orig.length := by omega
  have hget : u.hold_files[u.current_file_index]? =
      some (u.hold_files.get ⟨u.current_file_index, hiu⟩) :=
    List.getElem?_eq_getElem hiu
  have hval := hpt u.current_file_index hiuo hiu
  have hsize : (u.hold_files.get ⟨u.current_file_index, hiu⟩).size =
      orig[u.current_file_index].size := by
    rw [List.get_eq_getElem, hval]
    split <;> rfl
  have hL : (u.hold_files.get ⟨u.current_file_index, hiu⟩).size < L := by
    rw [hsize]
    exact hsz _ (List.getElem_mem hiuo)
  obtain ⟨s1, s2, s3, s4, s5⟩ := read_frame_hold_step L u _ hinp hfs hget hL
  refine ⟨s1, s2, ?_, ?_, ?_⟩
  · rw [s4, hlen, hidx, mod_succ_branch _ _ h0, Nat.add_assoc]
  · rw [s3, List.length_set, hlen]
  · intro t ht ht2
    simp only [s3] at ht2 ⊢
    rw [List.getElem_set]
    by_cases hti : u.current_file_index = t
    · subst hti
      have hcs : (u.current_file_index + orig.length - i0) % orig.length =
          m % orig.length := by
        rw [hidx]; exact cycle_self _ _ _ hK
      rw [if_pos rfl,
        if_pos (by rw [hcs]; exact lt_of_le_of_lt (Nat.mod_le m _) (Nat.lt_succ_self m))]
      rw [List.get_eq_getElem, hval]
      split <;> rfl
    · rw [if_neg hti, hpt t ht (by omega)]
      have hcne : (t + orig.length - i0) % orig.length ≠ m := by
        intro hc
        have hmK : m < orig.length := by rw [← hc]; exact Nat.mod_lt _ h0
        have hteq : t = (i0 + m) % orig.length := cycle_hit _ _ _ _ hK ht hmK hc
        exact hti (by rw [hidx, ← hteq])
      by_cases hlt2 : (t + orig.length - i0) % orig.length < m
      · rw [if_pos hlt2, if_pos (by omega)]
      · rw [if_neg hlt2, if_neg (by omega)]

lemma HoldInv_runReads (L : Nat) (orig : List FileSource) (i0 : Nat)
    (hK : i0 < orig.length) (hsz : ∀ f ∈ orig, f.size < L) :
    ∀ (j m : Nat) (u : PumpState), HoldInv orig i0 m u →
      HoldInv orig i0 (m + j) (runReads L j u) := by
  intro j
  induction j with
  | zero =>
    intro m u h
    rw [Nat.add_zero]
    exact h
  | succ j ih =>
    intro m u h
    have h1 := HoldInv_step L orig i0 m u hK hsz h
    have h2 := ih (m + 1) _ h1
    rw [show m + (j + 1) = m + 1 + j by omega]
    exact h2

/-- Claim C5: for a hold queue of `K` sources (playback queue empty, no
pending seek, every size positive and below the requested length so that
each read exhausts its source), after `K` reads past end-of-source the
cursor returns to its original value; every source has been rewound to
offset 0 yet remains in the hold queue with its identity, size and
open/closed state untouched — the advance closes and removes nothing. -/
theorem c5_hold_cycle (s : PumpState) (L : Nat)
    (hinp : s.input_files = []) (hfs : s.force_seek = false)
    (hidx : s.current_file_index < s.hold_files.length)
    (hsz : ∀ f ∈ s.hold_files, 0 < f.size ∧ f.size < L) :
    (runReads L s.hold_files.length s).current_file_index = s.current_file_index ∧
    (runReads L s.hold_files.length s).hold_files =
      s.hold_files.map (fun f => { f with pos := 0 }) ∧
    (runReads L s.hold_files.length s).input_files = [] := by
  have h0 : 0 < s.hold_files.length := by omega
  have hinv := HoldInv_runReads L s.hold_files s.current_file_index hidx
    (fun f hf => (hsz f hf).2) s.hold_files.length 0 s (HoldInv_zero s hinp hfs hidx)
  obtain ⟨h1, h2, h3, h4, h5⟩ := hinv
  refine ⟨?_, ?_, h1⟩
  · rw [h3, Nat.zero_add, Nat.add_mod_right, Nat.mod_eq_of_lt hidx]
  · apply List.ext_getElem
    · rw [h4, List.length_map]
    · intro t h1' h2'
      have ht : t < s.hold_files.length := by
        rw [List.length_map] at h2'; exact h2'
      rw [h5 t ht h1', if_pos (by rw [Nat.zero_add]; exact Nat.mod_lt _ h0),
        List.getElem_map]

/-- A two-source hold queue (sizes 2 and 3, cursor on the second source)
read with requested length 5 — the C5 witness. -/
def c5WitState : PumpState :=
  { initState with hold_files := [⟨1, 2, 0, false⟩, ⟨2, 3, 1, false⟩],
                   current_file_index := 1 }

theorem c5_hold_cycle_witness :
    (runReads 5 2 c5WitState).current_file_index = 1 ∧
    (runReads 5 2 c5WitState).hold_files = [⟨1, 2, 0, false⟩, ⟨2, 3, 0, false⟩] ∧
    (runReads 5 2 c5WitState).input_files = [] :=
  c5_hold_cycle c5WitState 5 rfl rfl (by decide) (by decide)
